/-
Verification of the tenant-isolation core of the next-iwc repository
(multi-tenant CRM: leads / customers / appointments behind Supabase RLS).

The definitions below are a shallow embedding of:
  * src/app/api/leads/route.ts, src/app/api/customers/route.ts,
    src/app/api/appointments/route.ts  (getAuth, input mappers, handlers)
  * src/lib/drizzle/withRLS.ts         (the scoped transaction wrapper)
  * src/lib/drizzle/migrations/0002_outgoing_cargill.sql and
    0004_rls_auth_select.sql           (the row-security policy set)

JavaScript runtime values reachable in this code are modelled by `JsVal`;
absent object properties read as `undefined`, mirroring JS property access.
-/
import Mathlib

/-- A JavaScript runtime value as it occurs in this code base: JSON-parsed
request bodies, Supabase `user_metadata`, and the objects the routes build.
`undefined` is the value of an absent property; `date` is a JS `Date` carrying
its millisecond timestamp. -/
inductive JsVal where
  | undefined
  | null
  | bool (b : Bool)
  | num (n : Int)
  | str (s : String)
  | date (ms : Int)
  | list (elems : List JsVal)
  | obj (fields : List (String × JsVal))

/-- A JS object, as an insertion-ordered association list. -/
abbrev JsObj := List (String × JsVal)

/-- Property read `o[k]` on a plain JS object: first binding wins (JS objects
have unique keys), absent keys read as `undefinedined`. -/
def jsGet (o : JsObj) (k : String) : JsVal :=
  match o.find? (fun kv => kv.1 = k) with
  | some kv => kv.2
  | none => .undefined

/-- Optional-chained read `o?.[k]` where `o` may be null/undefinedined. -/
def jsGetOpt (o : Option JsObj) (k : String) : JsVal :=
  match o with
  | some fields => jsGet fields k
  | none => .undefined

/-- JS falsiness for the values this code tests with `if (!x)`. -/
def jsFalsy : JsVal → Bool
  | .undefined => true
  | .null => true
  | .bool b => !b
  | .num n => n = 0
  | .str s => s = ""
  | .date _ => false
  | .list _ => false
  | .obj _ => false

/-- The whitespace class of JavaScript's `\s` / `trim()` restricted to the
characters that can occur in HTTP header values and query strings. -/
def isJsWs (c : Char) : Bool :=
  c = ' ' || c = '\t' || c = '\n' || c = '\r' || c = '\x0b' || c = '\x0c'

/-- ASCII lower-casing, for the case-insensitive `/^Bearer\s+/i` match. -/
def asciiLower (c : Char) : Char :=
  if 'A' ≤ c && c ≤ 'Z' then Char.ofNat (c.toNat + 32) else c

/-- Match a fixed lower-case pattern case-insensitively at the head of a
character list, returning the remainder on success. -/
def matchCI : List Char → List Char → Option (List Char)
  | [], rest => some rest
  | _ :: _, [] => none
  | p :: ps, c :: cs => if asciiLower c = p then matchCI ps cs else none

/-- `header.replace(/^Bearer\s+/i, "")`: if the header starts with a
case-insensitive `Bearer` followed by at least one whitespace character,
remove that prefix together with the whole whitespace run (the regex is
greedy); otherwise return the header unchanged. -/
def stripBearer (h : String) : String :=
  match matchCI ['b', 'e', 'a', 'r', 'e', 'r'] h.data with
  | some (c :: cs) => if isJsWs c then ⟨cs.dropWhile isJsWs⟩ else h
  | _ => h

/-- JavaScript `String.prototype.trim` over the same whitespace class:
drop leading whitespace, then drop trailing whitespace (via the reversal). -/
def jsTrim (s : String) : String :=
  ⟨(((s.data.dropWhile isJsWs).reverse.dropWhile isJsWs).reverse)⟩

/-- Nullish coalescing `v ?? d`. -/
def jsNullish (v d : JsVal) : JsVal :=
  match v with
  | .undefined => d
  | .null => d
  | v => v

/-- A verified Supabase identity as the routes consume it: `user.id` and the
`user_metadata` map (which Supabase may return absent or null). -/
structure UserIdentity where
  id : String
  user_metadata : Option JsObj

/-- Result of the `getAuth` helper shared (with local variations) by the three
routes. `err status msg` is the early `NextResponse.json({error: msg},
{status})` return; `ok` carries the values destructured at the call sites. -/
inductive AuthResult (ρ ω : Type) where
  | err (status : Nat) (msg : String)
  | ok (userId : String) (role : ρ) (orgId : ω)

namespace Leads

/-- The token of src/app/api/leads/route.ts:
`authHeader.replace(/^Bearer\s+/i, "")` — NOT trimmed on this route. -/
def token (header : String) : String := stripBearer header

/-- The claims derivation of leads `getAuth` once an identity is verified:
`role`/`orgId` are extracted with `typeof === "string"` checks; a
missing/non-string `org_id` (or the falsy empty string) yields the 400
response. -/
def deriveClaims (user : UserIdentity) : AuthResult String String :=
  let role := match jsGetOpt user.user_metadata "role" with
    | .str s => s
    | _ => "guest"
  let orgId : Option String := match jsGetOpt user.user_metadata "org_id" with
    | .str s => some s
    | _ => none
  match orgId with
  | some o => if o = "" then .err 400 "Missing org_id in user metadata" else .ok user.id role o
  | none => .err 400 "Missing org_id in user metadata"

/-- `getAuth` of src/app/api/leads/route.ts.  The identity provider call
`supabase.auth.getUser(token)` is abstracted as the `verify` parameter
(`none` models `error || !user`). -/
def getAuth (authHeader : Option String) (verify : String → Option UserIdentity) :
    AuthResult String String :=
  let tok := token (authHeader.getD "")
  if tok = "" then .err 401 "Missing Authorization Bearer token"
  else
    match verify tok with
    | none => .err 401 "Unauthorized"
    | some user => deriveClaims user

end Leads

namespace Appointments

/-- The token of src/app/api/appointments/route.ts:
`authHeader.replace(/^Bearer\s+/i, "").trim()`. -/
def token (header : String) : String := jsTrim (stripBearer header)

/-- `getAuth` of src/app/api/appointments/route.ts: identical to the leads
variant except that the token is additionally `.trim()`-ed; the claims
derivation is the same `typeof`-checked code. -/
def getAuth (authHeader : Option String) (verify : String → Option UserIdentity) :
    AuthResult String String :=
  let tok := token (authHeader.getD "")
  if tok = "" then .err 401 "Missing Authorization Bearer token"
  else
    match verify tok with
    | none => .err 401 "Unauthorized"
    | some user => Leads.deriveClaims user

end Appointments

namespace Customers

/-- The token of src/app/api/customers/route.ts: same untrimmed
`replace(/^Bearer\s+/i, "")` as the leads route. -/
def token (header : String) : String := stripBearer header

/-- The claims derivation of customers `getAuth`.  Unlike the other two
routes it performs no `typeof` checks: `role = metadata?.role ?? "guest"`
and `org_id = metadata?.org_id ?? null`, then `if (!org_id)` rejects only
falsy values, so a truthy non-string `org_id` (or `role`) flows through. -/
def deriveClaims (user : UserIdentity) : AuthResult JsVal JsVal :=
  let role := jsNullish (jsGetOpt user.user_metadata "role") (.str "guest")
  let orgId := jsNullish (jsGetOpt user.user_metadata "org_id") .null
  if jsFalsy orgId then .err 400 "Missing org_id in user metadata"
  else .ok user.id role orgId

/-- `getAuth` of src/app/api/customers/route.ts. -/
def getAuth (authHeader : Option String) (verify : String → Option UserIdentity) :
    AuthResult JsVal JsVal :=
  let tok := token (authHeader.getD "")
  if tok = "" then .err 401 "Missing Authorization Bearer token"
  else
    match verify tok with
    | none => .err 401 "Unauthorized"
    | some user => deriveClaims user

end Customers

/-! ## The JWT-claims objects each route hands to `withRLS`

`withRLS` receives a JS object and stores `JSON.stringify(claims)` in the
transaction-local setting `request.jwt.claims`; the policy layer parses it
back with `::jsonb` (Supabase's `auth.jwt()`).  Since `JSON.stringify` is
injective on these objects and `::jsonb` inverts it, the model transports
the JSON object itself. -/

/-- The object literal `{ sub: user.id, role, orgId }` built at every
`withRLS` call site of src/app/api/leads/route.ts — note the shorthand
property, so the serialized key is `orgId`. -/
def Leads.rlsClaims (userId role orgId : String) : JsObj :=
  [("sub", .str userId), ("role", .str role), ("orgId", .str orgId)]

/-- The object literal `{ sub: user.id, role, orgId }` built at every
`withRLS` call site of src/app/api/appointments/route.ts (key `orgId`). -/
def Appointments.rlsClaims (userId role orgId : String) : JsObj :=
  [("sub", .str userId), ("role", .str role), ("orgId", .str orgId)]

/-- The object literal `{ sub: user.id, role, org_id }` built at every
`withRLS` call site of src/app/api/customers/route.ts (key `org_id`;
`role`/`org_id` are whatever `getAuth` produced, possibly non-strings). -/
def Customers.rlsClaims (userId : String) (role orgId : JsVal) : JsObj :=
  [("sub", .str userId), ("role", role), ("org_id", orgId)]

/-- PostgreSQL's `jsonb ->> key` text extraction on a JSON object: the value
under `key` rendered as text, NULL for a JSON null or an absent key.
(`undefined`-valued properties are dropped by `JSON.stringify`, hence absent.) -/
def jsonGetText (o : JsObj) (k : String) : Option String :=
  match o.find? (fun kv => kv.1 = k) with
  | none => none
  | some kv =>
    match kv.2 with
    | .str s => some s
    | .num n => some (toString n)
    | .bool b => some (if b then "true" else "false")
    | .null => none
    | .undefined => none
    | .date ms => some (toString ms)
    | .list _ => some ""
    | .obj _ => some ""

/-! ## The scoped transaction wrapper (src/lib/drizzle/withRLS.ts)

`withRLS(claims, fn)` runs `db.transaction(async (tx) => { await tx.execute(
sql\`select set_config('request.jwt.claims', ${JSON.stringify(claims)},
true)\`); return fn(tx); })`.  The model below gives PostgreSQL's `set_config`
semantics explicitly: the third argument `is_local` routes the write either
to transaction-local state (discarded when the transaction ends) or to
session state (surviving on the pooled connection).  `db.transaction` is
drizzle-orm's transaction runner: BEGIN, run the callback, COMMIT on normal
return, ROLLBACK and re-throw on an exception. -/

/-- The configuration state of one pooled connection. -/
structure ConnState where
  sessionCfg : List (String × JsObj)
  localCfg : List (String × JsObj)

/-- `set_config(key, value, is_local)`. -/
def setConfig (key : String) (value : JsObj) (isLocal : Bool) (cs : ConnState) : ConnState :=
  if isLocal then { cs with localCfg := (key, value) :: cs.localCfg }
  else { cs with sessionCfg := (key, value) :: cs.sessionCfg }

/-- `current_setting(key, true)` as the policy layer sees it: a local setting
shadows a session one. -/
def readSetting (cs : ConnState) (key : String) : Option JsObj :=
  match cs.localCfg.find? (fun kv => kv.1 = key) with
  | some kv => some kv.2
  | none => (cs.sessionCfg.find? (fun kv => kv.1 = key)).map (fun kv => kv.2)

/-- The configuration key used by `withRLS` and read by `auth.jwt()`. -/
def requestJwtClaimsKey : String := "request.jwt.claims"

/-- What a data operation passed to `withRLS` can see inside the transaction:
the database contents and the claims setting the policy layer evaluates.
The seven call sites pass drizzle select/insert/update/delete queries, which
read and write table data but never call `set_config` themselves. -/
structure TxView (δ : Type) where
  data : δ
  claimsSetting : Option JsObj

/-- A data operation inside the transaction: it may return a result and new
database contents, or throw. -/
abbrev DataOp (δ ε α : Type) := TxView δ → Except ε (α × δ)

/-- The transaction view `fn` runs against after the `set_config` statement:
the database contents `d` and the claims setting as the policy layer reads
it back. -/
def withRLSView (claims : JsObj) (d : δ) : TxView δ :=
  let cs := setConfig requestJwtClaimsKey claims true { sessionCfg := [], localCfg := [] }
  { data := d, claimsSetting := readSetting cs requestJwtClaimsKey }

/-- `withRLS` on a single connection whose database contents are `d`:
open a transaction, `set_config('request.jwt.claims', claims, true)`, run
`fn` against the resulting view; commit its writes on success, roll back to
`d` and re-raise the original error on failure. -/
def withRLS (claims : JsObj) (fn : DataOp δ ε α) (d : δ) : Except ε α × δ :=
  match fn (withRLSView claims d) with
  | .ok (a, dNew) => (.ok a, dNew)
  | .error e => (.error e, d)

/-- A shared connection pool: common database contents plus per-connection
configuration state. -/
structure Pool (δ : Type) where
  data : δ
  conns : Nat → ConnState

/-- Replace the state of connection `c`. -/
def Pool.setConn (p : Pool δ) (c : Nat) (cs : ConnState) : Pool δ :=
  { p with conns := fun i => if i = c then cs else p.conns i }

/-- Running `withRLS` on connection `c` of a shared pool.  A committed
transaction keeps `fn`'s data writes but discards the transaction-local
configuration (restoring the connection's pre-transaction `localCfg`, as
`set_config(..., true)` values vanish at transaction end); a rolled-back one
restores data and connection state entirely and re-raises the error. -/
def withRLSOn (c : Nat) (claims : JsObj) (fn : DataOp δ ε α) (p : Pool δ) :
    Except ε α × Pool δ :=
  let cs1 := setConfig requestJwtClaimsKey claims true (p.conns c)
  match fn { data := p.data, claimsSetting := readSetting cs1 requestJwtClaimsKey } with
  | .ok (a, dNew) =>
    (.ok a, { data := dNew, conns := (p.setConn c { cs1 with localCfg := (p.conns c).localCfg }).conns })
  | .error e => (.error e, p)

/-- Every intermediate pool state of `withRLSOn`: the initial state, the
state after BEGIN + `set_config` (the claims sit in connection `c`'s
transaction-local configuration), the state after `fn`'s writes, and the
COMMIT/ROLLBACK state. -/
def withRLSTraceOn (c : Nat) (claims : JsObj) (fn : DataOp δ ε α) (p : Pool δ) :
    List (Pool δ) :=
  let cs1 := setConfig requestJwtClaimsKey claims true (p.conns c)
  let s1 := p.setConn c cs1
  match fn { data := p.data, claimsSetting := readSetting cs1 requestJwtClaimsKey } with
  | .ok (_, dNew) =>
    [p, s1, { s1 with data := dNew }, (withRLSOn c claims fn p).2]
  | .error _ => [p, s1, p]

/-! ## The row-security policy set

Transcribed from src/lib/drizzle/migrations/0002_outgoing_cargill.sql; the
0004_rls_auth_select.sql migration re-states the same predicates (it only
wraps `auth.jwt()` in a scalar subselect for performance).  `auth.jwt()`
evaluates to the `request.jwt.claims` setting parsed as jsonb, so each
predicate reads the claims object `withRLS` stored. -/

/-- The SQL command(s) a policy is declared `for`. -/
inductive PolicyCmd where
  | select | insert | update | delete | all
deriving DecidableEq, Repr

/-- The predicate shapes occurring in the migration (each policy's USING
and/or WITH CHECK expression). -/
inductive PolicyExpr where
  /-- `using (true)` — the `orgs_read` policy only. -/
  | alwaysTrue
  /-- `org_id = ((select auth.jwt())->>'org_id')::uuid` -/
  | orgMatch
  /-- `org_id = ((select auth.jwt())->>'org_id')::uuid and
      ((select auth.jwt())->>'role') in (r1, ..., rn)` -/
  | orgMatchAndRoleIn (roles : List String)
deriving DecidableEq, Repr

/-- Evaluate a policy predicate against a row's `org_id` and the claims
object carried by the transaction.  A NULL extraction (`->>` on an absent or
null key) makes the SQL comparison NULL, which RLS treats as not permitted.
(The `::uuid` cast is modelled as text comparison; org ids are uuids.) -/
def PolicyExpr.eval : PolicyExpr → String → JsObj → Bool
  | .alwaysTrue, _, _ => true
  | .orgMatch, rowOrg, claims => jsonGetText claims "org_id" = some rowOrg
  | .orgMatchAndRoleIn roles, rowOrg, claims =>
    (jsonGetText claims "org_id" = some rowOrg) &&
      match jsonGetText claims "role" with
      | some r => roles.contains r
      | none => false

/-- One `create policy` statement. -/
structure Policy where
  name : String
  table : String
  cmd : PolicyCmd
  expr : PolicyExpr
deriving DecidableEq, Repr

/-- The policies created by 0002_outgoing_cargill.sql (predicates unchanged
by 0004_rls_auth_select.sql).  RLS is enabled on all six tables, so any
command with no applicable policy is denied by default. -/
def rlsPolicies : List Policy :=
  [⟨"orgs_read", "orgs", .select, .alwaysTrue⟩,
   ⟨"users_read_own_org", "users", .select, .orgMatch⟩,
   ⟨"users_insert_own_org", "users", .insert, .orgMatch⟩,
   ⟨"customers_read_org", "customers", .select, .orgMatch⟩,
   ⟨"customers_insert_org", "customers", .insert, .orgMatch⟩,
   ⟨"customers_update_mgr", "customers", .update, .orgMatchAndRoleIn ["admin", "manager"]⟩,
   ⟨"deals_read_org", "deals", .select, .orgMatch⟩,
   ⟨"deals_insert_org", "deals", .insert, .orgMatch⟩,
   ⟨"deals_update_mgr", "deals", .update, .orgMatchAndRoleIn ["admin", "manager"]⟩,
   ⟨"apts_read_org", "appointments", .select, .orgMatch⟩,
   ⟨"apts_write_org", "appointments", .all, .orgMatch⟩,
   ⟨"leads_read_org", "leads", .select, .orgMatch⟩,
   ⟨"leads_insert_org", "leads", .insert, .orgMatch⟩,
   ⟨"leads_update_mgr", "leads", .update, .orgMatchAndRoleIn ["admin", "manager"]⟩]

/-- Whether a policy declared `for pcmd` governs an actual command `cmd`. -/
def appliesTo (cmd pcmd : PolicyCmd) : Bool :=
  pcmd = .all || pcmd = cmd

/-! ## Handler structure: authentication happens before any transaction

Every handler body is `const auth = await getAuth(req); if ("error" in auth)
return auth.error;` followed (possibly after further body validation) by the
single `withRLS` call.  `authStep` captures this split: an auth failure is
returned to the client and `withRLS` — hence `db.transaction` — is never
reached; on success the handler proceeds towards `withRLS` with the claims
object of that route's call sites. -/

/-- Outcome of a handler's authentication phase. -/
inductive HandlerStep where
  | errResponse (status : Nat) (msg : String)
  | txOpened (claims : JsObj)

/-- The leads handlers' authentication phase and the claims object their
`withRLS` calls would receive. -/
def Leads.authStep (hdr : Option String) (verify : String → Option UserIdentity) :
    HandlerStep :=
  match Leads.getAuth hdr verify with
  | .err s m => .errResponse s m
  | .ok uid role org => .txOpened (Leads.rlsClaims uid role org)

/-- The appointments handlers' authentication phase. -/
def Appointments.authStep (hdr : Option String) (verify : String → Option UserIdentity) :
    HandlerStep :=
  match Appointments.getAuth hdr verify with
  | .err s m => .errResponse s m
  | .ok uid role org => .txOpened (Appointments.rlsClaims uid role org)

/-- The customers handlers' authentication phase. -/
def Customers.authStep (hdr : Option String) (verify : String → Option UserIdentity) :
    HandlerStep :=
  match Customers.getAuth hdr verify with
  | .err s m => .errResponse s m
  | .ok uid role org => .txOpened (Customers.rlsClaims uid role org)

/-! ## Request-body mappers and write payloads

These embed `mapLeadInput` / `mapCustomerInput` / `mapApptInput` and the
payload/patch objects the POST and PATCH handlers build from them.  JS `Date`
parsing (`new Date(string)`) and `Date#toISOString().slice(0, 10)` are
abstracted as the parameters `dp` (parse: `none` = invalid date) and `iso`
(render the date-only string). -/

/-- Property access `v[k]` where `v` is an arbitrary JS value: only plain
objects yield properties here; on other values the routes' mappers read
`undefinedined`. -/
def jsGetAny (v : JsVal) (k : String) : JsVal :=
  match v with
  | .obj o => jsGet o k
  | _ => .undefined

/-- `parseString(value)`: the value itself when it is a string with a
non-blank trim, `undefinedined` otherwise. -/
def parseStringJ (v : JsVal) : JsVal :=
  match v with
  | .str s => if jsTrim s = "" then .undefined else .str s
  | _ => .undefined

/-- `parseNullableString(value)`: `null` passes through, otherwise
`parseString`. -/
def parseNullableStringJ (v : JsVal) : JsVal :=
  match v with
  | .null => .null
  | v => parseStringJ v

/-- `parseBoolean(value)`: booleans and the strings "true"/"false". -/
def parseBooleanJ (v : JsVal) : JsVal :=
  match v with
  | .bool b => .bool b
  | .str s => if s = "true" then .bool true else if s = "false" then .bool false else .undefined
  | _ => .undefined

/-- `parseDate(value)`: falsy values are `undefinedined`; a (valid) `Date` passes
through; strings parse via `dp`; numbers are millisecond timestamps. -/
def parseDateJ (dp : String → Option Int) (v : JsVal) : JsVal :=
  if jsFalsy v then .undefined
  else
    match v with
    | .date ms => .date ms
    | .str s => match dp s with
      | some ms => .date ms
      | none => .undefined
    | .num n => .date n
    | _ => .undefined

/-- `parseDateOnlyString(value)`: the `yyyy-mm-dd` slice of the parsed date;
`null` when the input was literally null, `undefinedined` otherwise. -/
def parseDateOnlyStringJ (dp : String → Option Int) (iso : Int → String) (v : JsVal) : JsVal :=
  match parseDateJ dp v with
  | .date ms => .str (iso ms)
  | _ => match v with
    | .null => .null
    | _ => .undefined

/-- The lead source enum of src/app/api/leads/route.ts. -/
def SOURCE_ENUM : List String :=
  ["homepage", "wedit", "kakao", "naver_talk", "naver_reserve", "powerlink",
   "intro", "cafe", "manual", "instagram", "referral", "etc"]

namespace Leads

/-- The `LeadPayload` object `mapLeadInput` returns; every field holds the
JS value the mapper computed (`undefined` = the property is undefinedined). -/
structure LeadPayload where
  brideName : JsVal
  groomName : JsVal
  bridePhone : JsVal
  groomPhone : JsVal
  brideEmail : JsVal
  groomEmail : JsVal
  address1 : JsVal
  address2 : JsVal
  interests : JsVal
  weddingPlannedOn : JsVal
  expectedVenue : JsVal
  memo : JsVal
  source : JsVal
  visited : JsVal
  consent : JsVal
  consentAt : JsVal
  customerId : JsVal

/-- The `{}` early return of `mapLeadInput`: every property reads as
undefinedined. -/
def emptyLeadPayload : LeadPayload :=
  ⟨.undefined, .undefined, .undefined, .undefined, .undefined, .undefined, .undefined, .undefined, .undefined,
   .undefined, .undefined, .undefined, .undefined, .undefined, .undefined, .undefined, .undefined⟩

/-- `mapLeadInput` of src/app/api/leads/route.ts. -/
def mapLeadInput (dp : String → Option Int) (iso : Int → String) (input : JsVal) :
    LeadPayload :=
  match input with
  | .obj raw =>
    let rawSource := parseStringJ (jsGet raw "source")
    let source := match rawSource with
      | .str s => if SOURCE_ENUM.contains s then JsVal.str s else .undefined
      | _ => .undefined
    let interests := match jsGet raw "interests" with
      | .list items => JsVal.list (items.filter fun item =>
          match item with
          | .str s => !(jsTrim s = "")
          | _ => false)
      | .null => .null
      | _ => .undefined
    { brideName := parseStringJ (jsNullish (jsGet raw "bride_name") (jsGet raw "brideName"))
      groomName := parseStringJ (jsNullish (jsGet raw "groom_name") (jsGet raw "groomName"))
      bridePhone := jsNullish (parseNullableStringJ (jsNullish (jsGet raw "bride_phone") (jsGet raw "bridePhone"))) .null
      groomPhone := jsNullish (parseNullableStringJ (jsNullish (jsGet raw "groom_phone") (jsGet raw "groomPhone"))) .null
      brideEmail := jsNullish (parseNullableStringJ (jsNullish (jsGet raw "bride_email") (jsGet raw "brideEmail"))) .null
      groomEmail := jsNullish (parseNullableStringJ (jsNullish (jsGet raw "groom_email") (jsGet raw "groomEmail"))) .null
      address1 := jsNullish (parseNullableStringJ (jsNullish (jsGet raw "address1") (jsGet raw "addr1"))) .null
      address2 := jsNullish (parseNullableStringJ (jsNullish (jsGet raw "address2") (jsGet raw "addr2"))) .null
      interests := interests
      weddingPlannedOn := jsNullish (parseDateOnlyStringJ dp iso (jsNullish (jsGet raw "wedding_planned_on") (jsGet raw "weddingPlannedOn"))) .null
      expectedVenue := jsNullish (parseNullableStringJ (jsNullish (jsGet raw "expected_venue") (jsGet raw "expectedVenue"))) .null
      memo := jsNullish (parseNullableStringJ (jsGet raw "memo")) .null
      source := source
      visited := jsNullish (parseBooleanJ (jsGet raw "visited")) (.bool false)
      consent := jsNullish (parseBooleanJ (jsGet raw "consent")) (.bool false)
      consentAt := jsNullish (parseDateJ dp (jsNullish (jsGet raw "consent_at") (jsGet raw "consentAt"))) .null
      customerId := jsNullish (parseNullableStringJ (jsNullish (jsGet raw "customer_id") (jsGet raw "customerId"))) .null }
  | _ => emptyLeadPayload

/-- The `LeadInsert` object the leads POST handler builds: `orgId` comes from
the authenticated claims, every other field from the mapped body. -/
structure LeadInsert where
  orgId : String
  brideName : JsVal
  groomName : JsVal
  bridePhone : JsVal
  groomPhone : JsVal
  brideEmail : JsVal
  groomEmail : JsVal
  address1 : JsVal
  address2 : JsVal
  interests : JsVal
  weddingPlannedOn : JsVal
  expectedVenue : JsVal
  memo : JsVal
  source : JsVal
  visited : JsVal
  consent : JsVal
  consentAt : JsVal
  customerId : JsVal

/-- The POST /api/leads payload: `none` models the 400 early return when
`bride_name`/`groom_name` are missing; otherwise the object literal of lines
239–258, whose `orgId` is the session's org id. -/
def postPayload (dp : String → Option Int) (iso : Int → String) (orgId : String)
    (body : JsVal) : Option LeadInsert :=
  let data := mapLeadInput dp iso body
  if jsFalsy data.brideName || jsFalsy data.groomName then none
  else some
    { orgId := orgId
      brideName := data.brideName
      groomName := data.groomName
      bridePhone := jsNullish data.bridePhone .null
      groomPhone := jsNullish data.groomPhone .null
      brideEmail := jsNullish data.brideEmail .null
      groomEmail := jsNullish data.groomEmail .null
      address1 := jsNullish data.address1 .null
      address2 := jsNullish data.address2 .null
      interests := jsNullish data.interests .null
      weddingPlannedOn := jsNullish data.weddingPlannedOn .null
      expectedVenue := jsNullish data.expectedVenue .null
      memo := jsNullish data.memo .null
      source := jsNullish data.source (.str "etc")
      visited := jsNullish data.visited (.bool false)
      consent := jsNullish data.consent (.bool false)
      consentAt := jsNullish data.consentAt .null
      customerId := jsNullish data.customerId .null }

end Leads

/-- One conditional assignment of a PATCH body: the column is part of the
update object only when the mapped value is not `undefinedined` (mirroring the
`if (patchRaw.x !== undefinedined) patch.x = patchRaw.x` chains). -/
def entryIf (k : String) (v : JsVal) : List (String × JsVal) :=
  match v with
  | .undefined => []
  | v => [(k, v)]

/-- One truthiness-guarded assignment (`if (patchRaw.x) patch.x = ...`). -/
def entryIfTruthy (k : String) (v : JsVal) : List (String × JsVal) :=
  if jsFalsy v then [] else [(k, v)]

/-- The column assignments the leads PATCH handler passes to
`tx.update(leads).set(patch)` (lines 284–301). -/
def Leads.patchOf (dp : String → Option Int) (iso : Int → String) (body : JsVal) :
    List (String × JsVal) :=
  let p := Leads.mapLeadInput dp iso body
  entryIf "brideName" p.brideName ++ entryIf "groomName" p.groomName ++
  entryIf "bridePhone" p.bridePhone ++ entryIf "groomPhone" p.groomPhone ++
  entryIf "brideEmail" p.brideEmail ++ entryIf "groomEmail" p.groomEmail ++
  entryIf "address1" p.address1 ++ entryIf "address2" p.address2 ++
  entryIf "interests" p.interests ++ entryIf "weddingPlannedOn" p.weddingPlannedOn ++
  entryIf "expectedVenue" p.expectedVenue ++ entryIf "memo" p.memo ++
  entryIf "source" p.source ++ entryIf "visited" p.visited ++
  entryIf "consent" p.consent ++ entryIf "consentAt" p.consentAt ++
  entryIf "customerId" p.customerId

namespace Customers

/-- `mapCustomerInput` of src/app/api/customers/route.ts: a six-key object. -/
def mapCustomerInput (input : JsVal) : JsObj :=
  [("name", jsGetAny input "name"),
   ("phone", jsGetAny input "phone"),
   ("email", jsNullish (jsGetAny input "email") .null),
   ("addr1", jsNullish (jsGetAny input "addr1") .null),
   ("addr2", jsNullish (jsGetAny input "addr2") .null),
   ("memo", jsNullish (jsGetAny input "memo") .null)]

/-- The POST /api/customers payload `{ orgId: org_id, ...data }`: the spread
appends `data`'s assignments after the `orgId` one, so on a key collision the
spread value would win; `none` models the 400 early return when
`name`/`phone` are missing. -/
def postPayload (orgId : JsVal) (body : JsVal) : Option JsObj :=
  let data := mapCustomerInput body
  if jsFalsy (jsGet data "name") || jsFalsy (jsGet data "phone") then none
  else some (("orgId", orgId) :: data)

/-- The value a JS object literal built from these assignments ends up
holding under `k`: the last assignment wins. -/
def jsObjFinal (o : JsObj) (k : String) : Option JsVal :=
  (o.reverse.find? (fun kv => kv.1 = k)).map (fun kv => kv.2)

/-- The column assignments the customers PATCH handler passes to
`tx.update(customers).set(patch)`: `Object.entries(patchRaw)` filtered to the
defined ones. -/
def patchOf (body : JsVal) : List (String × JsVal) :=
  (mapCustomerInput body).filter fun kv =>
    match kv.2 with
    | .undefined => false
    | _ => true

end Customers

namespace Appointments

/-- The appointment kind enum. -/
def ALLOWED_KINDS : List String := ["visit", "phone", "check"]

/-- The appointment status enum. -/
def ALLOWED_STATUSES : List String := ["scheduled", "done", "canceled"]

/-- The `AppointmentPayload` object `mapApptInput` returns. -/
structure ApptPayload where
  customerId : JsVal
  staffId : JsVal
  kind : JsVal
  startAt : JsVal
  endAt : JsVal
  status : JsVal
  note : JsVal

/-- `mapApptInput` of src/app/api/appointments/route.ts. -/
def mapApptInput (dp : String → Option Int) (input : JsVal) : ApptPayload :=
  match input with
  | .obj raw =>
    let rawKind := parseStringJ (jsGet raw "kind")
    let kind := match rawKind with
      | .str s => if ALLOWED_KINDS.contains s then JsVal.str s else .undefined
      | _ => .undefined
    let rawStatus := parseStringJ (jsGet raw "status")
    let status := match rawStatus with
      | .str s => if ALLOWED_STATUSES.contains s then JsVal.str s else .undefined
      | _ => .undefined
    { customerId := jsNullish (parseStringJ (jsNullish (jsGet raw "customer_id") (jsGet raw "customerId"))) .null
      staffId := jsNullish (parseStringJ (jsNullish (jsGet raw "staff_id") (jsGet raw "staffId"))) .null
      kind := kind
      startAt := parseDateJ dp (jsNullish (jsGet raw "start_at") (jsGet raw "startAt"))
      endAt := parseDateJ dp (jsNullish (jsGet raw "end_at") (jsGet raw "endAt"))
      status := status
      note := jsNullish (parseNullableStringJ (jsGet raw "note")) .null }
  | _ => ⟨.undefined, .undefined, .undefined, .undefined, .undefined, .undefined, .undefined⟩

/-- The `AppointmentInsert` object the appointments POST handler builds. -/
structure ApptInsert where
  orgId : String
  customerId : JsVal
  staffId : JsVal
  kind : JsVal
  startAt : JsVal
  endAt : JsVal
  status : JsVal
  note : JsVal

/-- Millisecond timestamp of a parsed date value (`getTime()`). -/
def msOf : JsVal → Int
  | .date ms => ms
  | _ => 0

/-- The POST /api/appointments payload: `none` models the two 400 early
returns (missing start/end; end not after start). -/
def postPayload (dp : String → Option Int) (orgId : String) (body : JsVal) :
    Option ApptInsert :=
  let data := mapApptInput dp body
  if jsFalsy data.startAt || jsFalsy data.endAt then none
  else if msOf data.endAt ≤ msOf data.startAt then none
  else some
    { orgId := orgId
      customerId := jsNullish data.customerId .null
      staffId := jsNullish data.staffId .null
      kind := jsNullish data.kind (.str "visit")
      startAt := data.startAt
      endAt := data.endAt
      status := jsNullish data.status (.str "scheduled")
      note := jsNullish data.note .null }

/-- The column assignments the appointments PATCH handler passes to
`tx.update(appointments).set(patch)` (lines 248–255; `kind`, `startAt`,
`endAt`, `status` are truthiness-guarded, the rest defined-guarded). -/
def patchOf (dp : String → Option Int) (body : JsVal) : List (String × JsVal) :=
  let p := mapApptInput dp body
  entryIf "customerId" p.customerId ++ entryIf "staffId" p.staffId ++
  entryIfTruthy "kind" p.kind ++ entryIfTruthy "startAt" p.startAt ++
  entryIfTruthy "endAt" p.endAt ++ entryIfTruthy "status" p.status ++
  entryIf "note" p.note

end Appointments

/-! ## The GET list limit -/

/-- JavaScript `parseInt(s, 10)`: skip leading whitespace, read an optional
sign and the longest run of decimal digits; `none` models NaN. -/
def parseIntJS (s : String) : Option Int :=
  let cs := s.data.dropWhile isJsWs
  let signed : Int × List Char :=
    match cs with
    | '-' :: rest => (-1, rest)
    | '+' :: rest => (1, rest)
    | rest => (1, rest)
  let ds := signed.2.takeWhile fun c => c.isDigit
  if ds.isEmpty then none
  else some (signed.1 * (ds.foldl (fun acc c => acc * 10 + (c.toNat - '0'.toNat)) 0 : Nat))

/-- `Math.min(parseInt(url.searchParams.get("limit") || "50", 10) || 50, 200)`
— the limit expression shared verbatim by the three GET handlers
(leads route line 162, customers line 68, appointments line 140).
`param = none` models an absent query parameter. -/
def queryLimit (param : Option String) : Int :=
  let raw := match param with
    | none => "50"
    | some s => if s = "" then "50" else s
  let n : Int := match parseIntJS raw with
    | none => 50
    | some k => if k = 0 then 50 else k
  min n 200

/-! ## Helper lemmas -/

theorem matchCI_append (b rest pat : List Char) (h : b.map asciiLower = pat) :
    matchCI pat (b ++ rest) = some rest := by
  induction b generalizing pat with
  | nil => subst h; rfl
  | cons c cs ih =>
    subst h
    simpa [matchCI] using ih _ rfl

theorem head?_dropWhile_not {α} (p : α → Bool) (l : List α) (c : α)
    (h : (l.dropWhile p).head? = some c) : p c = false := by
  induction l with
  | nil => simp [List.dropWhile] at h
  | cons a l ih =>
    by_cases hp : p a
    · rw [List.dropWhile_cons_of_pos hp] at h
      exact ih h
    · rw [List.dropWhile_cons_of_neg hp] at h
      simp at h
      subst h
      simpa using hp

theorem getLast?_dropWhile_or_nil {α} (p : α → Bool) (l : List α) :
    l.dropWhile p = [] ∨ (l.dropWhile p).getLast? = l.getLast? := by
  induction l with
  | nil => left; rfl
  | cons a l ih =>
    by_cases hp : p a
    · rw [List.dropWhile_cons_of_pos hp]
      cases l with
      | nil => left; rfl
      | cons b m =>
        rcases ih with hnil | heq
        · left; exact hnil
        · right; rw [heq, List.getLast?_cons_cons]
    · right; rw [List.dropWhile_cons_of_neg hp]

theorem dropWhile_eq_self_of_head {α} (p : α → Bool) (l : List α)
    (h : ∀ c, l.head? = some c → p c = false) : l.dropWhile p = l := by
  cases l with
  | nil => rfl
  | cons a l => exact List.dropWhile_cons_of_neg (by simp [h a rfl])

theorem stripBearer_ws_only (b w : List Char)
    (hb : b.map asciiLower = ['b', 'e', 'a', 'r', 'e', 'r']) (hw : w ≠ [])
    (hws : ∀ c ∈ w, isJsWs c = true) : stripBearer ⟨b ++ w⟩ = "" := by
  unfold stripBearer
  rw [show (String.mk (b ++ w)).data = b ++ w from rfl, matchCI_append b w _ hb]
  cases w with
  | nil => exact absurd rfl hw
  | cons c cs =>
    have hc : isJsWs c = true := hws c (List.mem_cons_self c cs)
    have hcs : cs.dropWhile isJsWs = [] :=
      List.dropWhile_eq_nil_iff.mpr fun x hx => by
        simpa using hws x (List.mem_cons_of_mem c hx)
    simp [hc, hcs]

/-! ## C7: commit on success, full rollback and re-raise on failure -/

/-- C7: for every operation passed to `withRLS`: if the operation returns
normally the transaction commits (the operation's writes become the new
database contents) and `withRLS` returns the operation's result; if the
operation throws, the transaction rolls back fully (the database contents
are the initial ones, so no partial write of the failed operation is
visible to any later read) and `withRLS` re-raises the original error
unchanged. -/
theorem withRLS_commits_or_rolls_back :
    ∀ (δ ε α : Type) (claims : JsObj) (fn : DataOp δ ε α) (d : δ),
      (∀ a dNew, fn (withRLSView claims d) = .ok (a, dNew) →
        withRLS claims fn d = (.ok a, dNew)) ∧
      (∀ e, fn (withRLSView claims d) = .error e →
        withRLS claims fn d = (.error e, d)) := by
  intro δ ε α claims fn d
  constructor
  · intro a dNew h
    simp [withRLS, h]
  · intro e h
    simp [withRLS, h]

/-- Witness for C7 at a concrete store (a `Nat` counter): a successful
operation commits its increment and returns its result; a throwing one
leaves the store at its initial value and re-raises. -/
theorem withRLS_commits_or_rolls_back_witness :
    withRLS [] (fun v => (Except.ok (v.data, v.data + 1) : Except String (Nat × Nat))) 7
        = (Except.ok 7, 8) ∧
    withRLS [] (fun _ => (Except.error "boom" : Except String (Nat × Nat))) 7
        = (Except.error "boom", 7) := by
  constructor
  · exact (withRLS_commits_or_rolls_back Nat String Nat [] _ 7).1 7 8 rfl
  · exact (withRLS_commits_or_rolls_back Nat String Nat [] _ 7).2 "boom" rfl

/-! ## C3: claims are transaction-local and never leak across connections -/

/-- C3: running `withRLS` on connection `c` of a shared pool never makes the
claims observable from any other connection `c'` — at every intermediate
state of the transaction, `current_setting('request.jwt.claims')` on `c'`
reads exactly what it read before — and after the transaction completes no
claims state survives on any connection of the pool (the `set_config` call
is transaction-local, `is_local = true`). -/
theorem rls_claims_transaction_local :
    ∀ (δ ε α : Type) (c : Nat) (claims : JsObj) (fn : DataOp δ ε α) (p : Pool δ),
      (∀ n c', c' ≠ c →
        readSetting (((withRLSTraceOn c claims fn p).getD n p).conns c') requestJwtClaimsKey
          = readSetting (p.conns c') requestJwtClaimsKey) ∧
      (∀ i, (withRLSOn c claims fn p).2.conns i = p.conns i) := by
  intro δ ε α c claims fn p
  constructor
  · intro n c' hne
    rcases hfn : fn ⟨p.data, readSetting (setConfig requestJwtClaimsKey claims true (p.conns c)) requestJwtClaimsKey⟩ with e | v
    · rcases n with _ | _ | _ | n <;>
        simp [withRLSTraceOn, List.getD, hfn, Pool.setConn, hne]
    · rcases n with _ | _ | _ | _ | n <;>
        simp [withRLSTraceOn, List.getD, hfn, Pool.setConn, hne, withRLSOn]
  · intro i
    rcases hfn : fn ⟨p.data, readSetting (setConfig requestJwtClaimsKey claims true (p.conns c)) requestJwtClaimsKey⟩ with e | v
    · simp [withRLSOn, hfn]
    · obtain ⟨a, dNew⟩ := v
      by_cases hic : i = c
      · subst hic
        simp only [withRLSOn, hfn]
        simp [Pool.setConn, setConfig]
      · simp only [withRLSOn, hfn]
        simp [Pool.setConn, hic]

/-- Witness for C3 on a concrete two-connection pool: the claims set by a
transaction on connection 0 are invisible on connection 1 while the
transaction runs, and connection 0 carries no claims state afterwards. -/
theorem rls_claims_transaction_local_witness :
    readSetting (((withRLSTraceOn 0 [("org_id", JsVal.str "org-1")]
          (fun v => (Except.ok (0, v.data) : Except String (Nat × Nat)))
          { data := 0, conns := fun _ => ⟨[], []⟩ }).getD 1
          { data := 0, conns := fun _ => ⟨[], []⟩ }).conns 1) requestJwtClaimsKey
      = readSetting (ConnState.mk [] []) requestJwtClaimsKey ∧
    (withRLSOn 0 [("org_id", JsVal.str "org-1")]
          (fun v => (Except.ok (0, v.data) : Except String (Nat × Nat)))
          { data := 0, conns := fun _ => ⟨[], []⟩ }).2.conns 0
      = ConnState.mk [] [] := by
  constructor
  · exact (rls_claims_transaction_local Nat String Nat 0 _ _ _).1 1 1 (by decide)
  · exact (rls_claims_transaction_local Nat String Nat 0 _ _ _).2 0

/-! ## C1: the serialized claims and the key the policies read -/

/-- C1 fails on the code: the leads (and appointments) handlers pass
`{ sub, role, orgId }` to `withRLS`, so the JSON serialized into
`request.jwt.claims` carries the org under the key `orgId`, not `org_id`;
the policies' `->>'org_id'` lookup therefore evaluates to NULL rather than
the acting org id.  Only the customers handlers pass `org_id`.  Evaluated
here at a concrete verified session (`sub` "user-1", role "staff",
org "org-1") reaching the leads GET handler's `withRLS` call. -/
theorem leads_claims_missing_org_id_key :
    Leads.authStep (some "Bearer tok")
        (fun t => if t = "tok"
          then some ⟨"user-1", some [("role", JsVal.str "staff"), ("org_id", JsVal.str "org-1")]⟩
          else none)
      = HandlerStep.txOpened (Leads.rlsClaims "user-1" "staff" "org-1") ∧
    jsonGetText (Leads.rlsClaims "user-1" "staff" "org-1") "org_id" = none ∧
    jsonGetText (Leads.rlsClaims "user-1" "staff" "org-1") "orgId" = some "org-1" ∧
    PolicyExpr.eval .orgMatch "org-1" (Leads.rlsClaims "user-1" "staff" "org-1") = false ∧
    jsonGetText (Appointments.rlsClaims "user-1" "staff" "org-1") "org_id" = none ∧
    jsonGetText (Customers.rlsClaims "user-1" (.str "staff") (.str "org-1")) "org_id"
      = some "org-1" := by
  refine ⟨rfl, rfl, rfl, ?_, rfl, rfl⟩
  rfl

/-! ## C5: missing or empty bearer credential fails closed with 401 -/

/-- C5: for every request whose Authorization header is absent, empty, or
carries an empty bearer value (a case-insensitive `Bearer` followed by
nothing but whitespace), `getAuth` of all three routes fails with 401
"Missing Authorization Bearer token" and the handlers never reach
`withRLS` — no transaction is opened. -/
theorem missing_bearer_token_unauthenticated :
    ∀ (hdr : Option String) (verify : String → Option UserIdentity),
      (hdr = none ∨ hdr = some "" ∨
        ∃ b w : List Char, hdr = some ⟨b ++ w⟩ ∧
          b.map asciiLower = ['b', 'e', 'a', 'r', 'e', 'r'] ∧ w ≠ [] ∧
          ∀ c ∈ w, isJsWs c = true) →
      Leads.authStep hdr verify = .errResponse 401 "Missing Authorization Bearer token" ∧
      Customers.authStep hdr verify = .errResponse 401 "Missing Authorization Bearer token" ∧
      Appointments.authStep hdr verify = .errResponse 401 "Missing Authorization Bearer token" := by
  intro hdr verify h
  rcases h with h | h | ⟨b, w, h, hb, hw, hws⟩ <;> subst h
  · exact ⟨rfl, rfl, rfl⟩
  · exact ⟨rfl, rfl, rfl⟩
  · have hstrip := stripBearer_ws_only b w hb hw hws
    refine ⟨?_, ?_, ?_⟩ <;>
      simp [Leads.authStep, Customers.authStep, Appointments.authStep,
        Leads.getAuth, Customers.getAuth, Appointments.getAuth,
        Leads.token, Customers.token, Appointments.token, hstrip, jsTrim]

/-- Witness for C5: the concrete header `Bearer   ` (an empty bearer value)
is rejected with 401 by all three routes for any verifier. -/
theorem missing_bearer_token_unauthenticated_witness :
    Leads.authStep (some "Bearer   ") (fun _ => none)
      = .errResponse 401 "Missing Authorization Bearer token" ∧
    Customers.authStep (some "Bearer   ") (fun _ => none)
      = .errResponse 401 "Missing Authorization Bearer token" ∧
    Appointments.authStep (some "Bearer   ") (fun _ => none)
      = .errResponse 401 "Missing Authorization Bearer token" :=
  missing_bearer_token_unauthenticated (some "Bearer   ") (fun _ => none)
    (Or.inr (Or.inr ⟨['B', 'e', 'a', 'r', 'e', 'r'], [' ', ' ', ' '],
      rfl, by decide, by decide, by decide⟩))

/-! ## C9: token trimming -/

/-- C9 counterexample: the leads credential resolver does not trim — for the
header `Bearer abc ` it outputs `abc ` which still ends in whitespace, so
the token handed to the identity verifier is not surrounding-whitespace
trimmed as the claim states. -/
theorem leads_token_not_trimmed :
    Leads.token "Bearer abc " = "abc " ∧
    (Leads.token "Bearer abc ").data.getLast? = some ' ' ∧
    isJsWs ' ' = true := by
  refine ⟨by decide, by decide, by decide⟩

/-- C9 amended: only the appointments resolver trims the token (its output
never starts or ends with whitespace); the leads and customers resolvers
merely remove the `Bearer` prefix together with the whitespace run following
it, returning the remainder verbatim — in particular, for a header
`"Bearer " ++ r` whose remainder `r` does not start with whitespace, their
output is exactly `r`, trailing whitespace included. -/
theorem token_trimming_amended :
    (∀ (h : String) (c : Char),
      ((Appointments.token h).data.head? = some c → isJsWs c = false) ∧
      ((Appointments.token h).data.getLast? = some c → isJsWs c = false)) ∧
    (∀ r : String, (∀ c, r.data.head? = some c → isJsWs c = false) →
      Leads.token ("Bearer " ++ r) = r ∧ Customers.token ("Bearer " ++ r) = r) := by
  constructor
  · intro h c
    constructor
    · intro hc
      simp only [Appointments.token, jsTrim, List.head?_reverse] at hc
      rcases getLast?_dropWhile_or_nil isJsWs
          ((stripBearer h).data.dropWhile isJsWs).reverse with hnil | heq
      · rw [hnil] at hc
        simp at hc
      · rw [heq, List.getLast?_reverse] at hc
        exact head?_dropWhile_not _ _ _ hc
    · intro hc
      simp only [Appointments.token, jsTrim, List.getLast?_reverse] at hc
      exact head?_dropWhile_not _ _ _ hc
  · intro r hr
    have key : stripBearer ("Bearer " ++ r) = r := by
      have hd : ("Bearer " ++ r).data = ['B', 'e', 'a', 'r', 'e', 'r'] ++ (' ' :: r.data) := rfl
      unfold stripBearer
      rw [hd, matchCI_append _ _ _ (by decide)]
      simp only [show isJsWs ' ' = true from rfl, if_true]
      rw [dropWhile_eq_self_of_head isJsWs r.data hr]
    exact ⟨key, key⟩

/-- Witness for C9 amended: header `Bearer abc` yields token `abc` on the
leads and customers routes, and the appointments token for `Bearer  abc  `
carries no edge whitespace. -/
theorem token_trimming_amended_witness :
    Leads.token ("Bearer " ++ "abc") = "abc" ∧
    Customers.token ("Bearer " ++ "abc") = "abc" ∧
    ((Appointments.token "Bearer  abc  ").data.head? = some 'x' → isJsWs 'x' = false) := by
  refine ⟨(token_trimming_amended.2 "abc" ?_).1, (token_trimming_amended.2 "abc" ?_).2,
    (token_trimming_amended.1 "Bearer  abc  " 'x').1⟩ <;>
    · intro c hc
      simp at hc
      subst hc
      decide

/-! ## C4: missing string-typed org_id fails closed — with a customers gap -/

/-- C4 counterexample: the customers `getAuth` checks `org_id` only for
truthiness, so a verified identity whose metadata carries the non-string
`org_id: 7` (hence lacks a string-typed `org_id`) is NOT rejected with 400:
resolution succeeds and the handler proceeds to open a transaction. -/
theorem customers_accepts_nonstring_org_id :
    Customers.authStep (some "Bearer tok")
        (fun t => if t = "tok" then some ⟨"u2", some [("org_id", JsVal.num 7)]⟩ else none)
      = HandlerStep.txOpened (Customers.rlsClaims "u2" (.str "guest") (.num 7)) := by
  rfl

/-- Helper: the leads claims derivation rejects any metadata lacking a
string-typed `org_id`. -/
theorem leads_deriveClaims_missing_org :
    ∀ u : UserIdentity, (∀ s, jsGetOpt u.user_metadata "org_id" ≠ .str s) →
      Leads.deriveClaims u = .err 400 "Missing org_id in user metadata" := by
  intro u hno
  unfold Leads.deriveClaims
  cases hv : jsGetOpt u.user_metadata "org_id" <;>
    first
      | exact absurd hv (hno _)
      | simp [hv]

/-- Helper: when the token is non-empty and verification succeeds, leads
`getAuth` returns the claims derivation of the verified identity. -/
theorem leads_getAuth_verified :
    ∀ (hdr : Option String) (verify : String → Option UserIdentity) u,
      Leads.token (hdr.getD "") ≠ "" → verify (Leads.token (hdr.getD "")) = some u →
      Leads.getAuth hdr verify = Leads.deriveClaims u := by
  intro hdr verify u ht hv
  simp [Leads.getAuth, ht, hv]

/-- Helper: same for the appointments route (it shares the leads claims
derivation). -/
theorem appointments_getAuth_verified :
    ∀ (hdr : Option String) (verify : String → Option UserIdentity) u,
      Appointments.token (hdr.getD "") ≠ "" →
      verify (Appointments.token (hdr.getD "")) = some u →
      Appointments.getAuth hdr verify = Leads.deriveClaims u := by
  intro hdr verify u ht hv
  simp [Appointments.getAuth, ht, hv]

/-- Helper: same for the customers route and its own derivation. -/
theorem customers_getAuth_verified :
    ∀ (hdr : Option String) (verify : String → Option UserIdentity) u,
      Customers.token (hdr.getD "") ≠ "" → verify (Customers.token (hdr.getD "")) = some u →
      Customers.getAuth hdr verify = Customers.deriveClaims u := by
  intro hdr verify u ht hv
  simp [Customers.getAuth, ht, hv]

/-- Helper: the customers derivation rejects exactly the falsy `org_id`
values. -/
theorem customers_deriveClaims_falsy_org :
    ∀ u : UserIdentity, jsFalsy (jsNullish (jsGetOpt u.user_metadata "org_id") .null) = true →
      Customers.deriveClaims u = .err 400 "Missing org_id in user metadata" := by
  intro u hf
  simp [Customers.deriveClaims, hf]

/-- Helper: every `getAuth` failure is returned before `withRLS` — the
handler's authentication phase ends in the error response, for each route. -/
theorem getAuth_err_no_transaction :
    (∀ hdr verify s m, Leads.getAuth hdr verify = .err s m →
      Leads.authStep hdr verify = .errResponse s m) ∧
    (∀ hdr verify s m, Appointments.getAuth hdr verify = .err s m →
      Appointments.authStep hdr verify = .errResponse s m) ∧
    (∀ hdr verify s m, Customers.getAuth hdr verify = .err s m →
      Customers.authStep hdr verify = .errResponse s m) := by
  refine ⟨?_, ?_, ?_⟩ <;>
    · intro hdr verify s m h
      simp [Leads.authStep, Appointments.authStep, Customers.authStep, h]

/-- C4 amended: for the leads and appointments routes, every verified
identity whose metadata lacks a string-typed `org_id` fails with 400
"Missing org_id in user metadata", and on every route an auth failure is
returned before `withRLS` — no transaction is opened.  The customers route
rejects on this ground only when its `org_id ?? null` value is falsy
(absent, null, `false`, `0`, or the empty string); truthy non-string values
pass through. -/
theorem missing_org_id_fails_closed :
    (∀ u : UserIdentity, (∀ s, jsGetOpt u.user_metadata "org_id" ≠ .str s) →
      Leads.deriveClaims u = .err 400 "Missing org_id in user metadata") ∧
    (∀ (hdr : Option String) (verify : String → Option UserIdentity) u,
      Leads.token (hdr.getD "") ≠ "" → verify (Leads.token (hdr.getD "")) = some u →
      Leads.getAuth hdr verify = Leads.deriveClaims u) ∧
    (∀ (hdr : Option String) (verify : String → Option UserIdentity) u,
      Appointments.token (hdr.getD "") ≠ "" → verify (Appointments.token (hdr.getD "")) = some u →
      Appointments.getAuth hdr verify = Leads.deriveClaims u) ∧
    (∀ (hdr : Option String) (verify : String → Option UserIdentity) u,
      Customers.token (hdr.getD "") ≠ "" → verify (Customers.token (hdr.getD "")) = some u →
      Customers.getAuth hdr verify = Customers.deriveClaims u) ∧
    (∀ u : UserIdentity, jsFalsy (jsNullish (jsGetOpt u.user_metadata "org_id") .null) = true →
      Customers.deriveClaims u = .err 400 "Missing org_id in user metadata") ∧
    (∀ hdr verify s m, Leads.getAuth hdr verify = .err s m →
      Leads.authStep hdr verify = .errResponse s m) ∧
    (∀ hdr verify s m, Appointments.getAuth hdr verify = .err s m →
      Appointments.authStep hdr verify = .errResponse s m) ∧
    (∀ hdr verify s m, Customers.getAuth hdr verify = .err s m →
      Customers.authStep hdr verify = .errResponse s m) :=
  ⟨leads_deriveClaims_missing_org, leads_getAuth_verified, appointments_getAuth_verified,
   customers_getAuth_verified, customers_deriveClaims_falsy_org,
   getAuth_err_no_transaction.1, getAuth_err_no_transaction.2.1,
   getAuth_err_no_transaction.2.2⟩

/-- Witness for C4 amended: a verified identity whose metadata has a role
but no `org_id` at all is rejected with 400 by the leads route before any
transaction. -/
theorem missing_org_id_fails_closed_witness :
    Leads.authStep (some "Bearer tok")
        (fun t => if t = "tok" then some ⟨"u1", some [("role", JsVal.str "staff")]⟩ else none)
      = .errResponse 400 "Missing org_id in user metadata" := by
  have hlink := missing_org_id_fails_closed.2.1 (some "Bearer tok")
    (fun t => if t = "tok" then some ⟨"u1", some [("role", JsVal.str "staff")]⟩ else none)
    ⟨"u1", some [("role", JsVal.str "staff")]⟩ (by decide) rfl
  have hderive := missing_org_id_fails_closed.1 ⟨"u1", some [("role", JsVal.str "staff")]⟩
    (fun s hs => by simp [jsGetOpt, jsGet, List.find?] at hs)
  exact missing_org_id_fails_closed.2.2.2.2.2.1 _ _ 400 "Missing org_id in user metadata"
    (hlink.trans hderive)

/-! ## C6: the role default -/

/-- C6 counterexample: the customers route derives the claims with
`role ?? "guest"`, so a verified identity with the non-string `role: 5`
(hence lacking a string-typed role) keeps role `5` instead of defaulting to
`"guest"`. -/
theorem customers_role_default_bypass :
    Customers.deriveClaims ⟨"u2", some [("role", JsVal.num 5), ("org_id", JsVal.str "org-1")]⟩
      = .ok "u2" (.num 5) (.str "org-1") ∧ JsVal.num 5 ≠ JsVal.str "guest" := by
  exact ⟨rfl, by simp⟩

/-- C6 amended: on the leads and appointments routes the derived role is
`"guest"` whenever the metadata lacks a string-typed `role` (absent, null,
or non-string); on the customers route the default applies only when the
role is absent or null — any other non-string value is passed through
unchanged. -/
theorem role_defaults_to_guest :
    (∀ (hdr : Option String) (verify : String → Option UserIdentity) u uid role org,
      verify (Leads.token (hdr.getD "")) = some u →
      (∀ s, jsGetOpt u.user_metadata "role" ≠ .str s) →
      Leads.getAuth hdr verify = .ok uid role org → role = "guest") ∧
    (∀ (hdr : Option String) (verify : String → Option UserIdentity) u uid role org,
      verify (Appointments.token (hdr.getD "")) = some u →
      (∀ s, jsGetOpt u.user_metadata "role" ≠ .str s) →
      Appointments.getAuth hdr verify = .ok uid role org → role = "guest") ∧
    (∀ (hdr : Option String) (verify : String → Option UserIdentity) u uid role org,
      verify (Customers.token (hdr.getD "")) = some u →
      (jsGetOpt u.user_metadata "role" = .undefined ∨ jsGetOpt u.user_metadata "role" = .null) →
      Customers.getAuth hdr verify = .ok uid role org → role = .str "guest") := by
  have typed : ∀ u : UserIdentity, (∀ s, jsGetOpt u.user_metadata "role" ≠ .str s) →
      ∀ uid role org, Leads.deriveClaims u = .ok uid role org → role = "guest" := by
    intro u hns uid role org hok
    unfold Leads.deriveClaims at hok
    cases hrole : jsGetOpt u.user_metadata "role" <;>
      first
        | exact absurd hrole (hns _)
        | (rw [hrole] at hok
           cases horg : jsGetOpt u.user_metadata "org_id" <;>
             (rw [horg] at hok
              simp at hok
              try (split at hok <;> simp_all)))
  refine ⟨?_, ?_, ?_⟩
  · intro hdr verify u uid role org hv hns hok
    by_cases ht : Leads.token (hdr.getD "") = ""
    · simp [Leads.getAuth, ht] at hok
    · rw [leads_getAuth_verified hdr verify u ht hv] at hok
      exact typed u hns uid role org hok
  · intro hdr verify u uid role org hv hns hok
    by_cases ht : Appointments.token (hdr.getD "") = ""
    · simp [Appointments.getAuth, ht] at hok
    · rw [appointments_getAuth_verified hdr verify u ht hv] at hok
      exact typed u hns uid role org hok
  · intro hdr verify u uid role org hv hnl hok
    by_cases ht : Customers.token (hdr.getD "") = ""
    · simp [Customers.getAuth, ht] at hok
    · rw [customers_getAuth_verified hdr verify u ht hv] at hok
      unfold Customers.deriveClaims at hok
      rcases hnl with hnl | hnl <;> rw [hnl] at hok <;>
        simp [jsNullish] at hok <;> split at hok <;> simp_all

/-- Witness for C6: a verified identity with an org but no `role` key in its
metadata resolves on the leads route with role `"guest"`. -/
theorem role_defaults_to_guest_witness :
    Leads.getAuth (some "Bearer tok")
        (fun t => if t = "tok" then some ⟨"u1", some [("org_id", JsVal.str "org-1")]⟩ else none)
      = .ok "u1" "guest" "org-1" ∧ ("guest" : String) = "guest" := by
  refine ⟨rfl, ?_⟩
  exact role_defaults_to_guest.1 (some "Bearer tok")
    (fun t => if t = "tok" then some ⟨"u1", some [("org_id", JsVal.str "org-1")]⟩ else none)
    ⟨"u1", some [("org_id", JsVal.str "org-1")]⟩ "u1" "guest" "org-1" rfl
    (fun s hs => by simp [jsGetOpt, jsGet, List.find?] at hs) rfl

/-! ## C2: the row-security policy set -/

/-- The tenant-scoped tables the claim ranges over. -/
def tenantTables : List String := ["leads", "customers", "appointments"]

/-- C2 counterexample: no policy in the migration set governs DELETE on the
leads table — there is neither a `for delete` nor a `for all` policy on
leads — so the claimed policy existence for every (table, operation) pair
fails at (leads, delete).  (The same holds for customers.)  With RLS
enabled, deletes on those tables are denied outright by default. -/
theorem no_delete_policy_for_leads :
    (rlsPolicies.any fun p => p.table = "leads" && appliesTo PolicyCmd.delete p.cmd) = false := by
  decide

/-- C2 amended: for each tenant-scoped table and each of select, insert and
update — and additionally delete on appointments — a policy exists; leads
and customers have no delete policy at all.  Every policy on a tenant table
permits a row only when the row's `org_id` equals the `org_id` carried by
the transaction's claims; the update policies on leads and customers are
exactly the org check conjoined with `role in ('admin', 'manager')`. -/
theorem tenant_policies_org_scoped :
    (∀ t ∈ tenantTables, ∀ cmd ∈ [PolicyCmd.select, PolicyCmd.insert, PolicyCmd.update],
      ∃ p ∈ rlsPolicies, p.table = t ∧ appliesTo cmd p.cmd = true) ∧
    (∃ p ∈ rlsPolicies, p.table = "appointments" ∧ appliesTo PolicyCmd.delete p.cmd = true) ∧
    ((rlsPolicies.any fun p => p.table = "leads" && appliesTo PolicyCmd.delete p.cmd) = false ∧
     (rlsPolicies.any fun p => p.table = "customers" && appliesTo PolicyCmd.delete p.cmd) = false) ∧
    (∀ p ∈ rlsPolicies, p.table ∈ tenantTables →
      ∀ rowOrg claims, p.expr.eval rowOrg claims = true →
        jsonGetText claims "org_id" = some rowOrg) ∧
    (∀ p ∈ rlsPolicies, (p.table = "leads" ∨ p.table = "customers") →
      appliesTo PolicyCmd.update p.cmd = true →
      p.expr = .orgMatchAndRoleIn ["admin", "manager"]) ∧
    (∀ (roles : List String) rowOrg claims,
      PolicyExpr.eval (.orgMatchAndRoleIn roles) rowOrg claims = true →
      ∃ r, jsonGetText claims "role" = some r ∧ roles.contains r = true) := by
  refine ⟨by decide, by decide, ⟨by decide, by decide⟩, ?_, by decide, ?_⟩
  · intro p hp ht rowOrg claims he
    fin_cases hp <;>
      first
        | exact absurd ht (by decide)
        | simpa [PolicyExpr.eval] using he
        | (simp [PolicyExpr.eval] at he
           exact he.1)
  · intro roles rowOrg claims he
    simp [PolicyExpr.eval] at he
    obtain ⟨h1, h2⟩ := he
    cases hr : jsonGetText claims "role" with
    | none => rw [hr] at h2; simp at h2
    | some r =>
      rw [hr] at h2
      exact ⟨r, rfl, by simpa using h2⟩

/-- Witness for C2 amended: the leads select policy applied to a concrete
claims object carrying `org_id = "org-1"` forces that very org id, and the
role-checking predicate at a concrete manager session yields the role. -/
theorem tenant_policies_org_scoped_witness :
    jsonGetText [("org_id", JsVal.str "org-1")] "org_id" = some "org-1" ∧
    (∃ r, jsonGetText [("org_id", JsVal.str "org-1"), ("role", JsVal.str "manager")] "role"
        = some r ∧ (["admin", "manager"].contains r) = true) := by
  constructor
  · exact tenant_policies_org_scoped.2.2.2.1 ⟨"leads_read_org", "leads", .select, .orgMatch⟩
      (by decide) (by decide) "org-1" [("org_id", JsVal.str "org-1")] (by decide)
  · exact tenant_policies_org_scoped.2.2.2.2.2 ["admin", "manager"] "org-1"
      [("org_id", JsVal.str "org-1"), ("role", JsVal.str "manager")] (by decide)

/-! ## C8: org_id comes from the claims and is never patched -/

/-- Helper: a defined-guarded assignment only ever contributes its own key. -/
theorem mem_keys_entryIf {s k : String} {v : JsVal}
    (h : s ∈ (entryIf k v).map Prod.fst) : s = k := by
  cases v <;> simp [entryIf] at h <;> exact h

/-- Helper: likewise for a truthiness-guarded assignment. -/
theorem mem_keys_entryIfTruthy {s k : String} {v : JsVal}
    (h : s ∈ (entryIfTruthy k v).map Prod.fst) : s = k := by
  unfold entryIfTruthy at h
  split at h <;> simp at h
  exact h

/-- C8: in every POST handler the stored `orgId` is the authenticated
session's org id, whatever the request body contains (for customers, even
though the body-derived fields are spread after the `orgId` assignment);
and no PATCH handler's update object ever contains the `orgId` column, so a
row's org cannot be changed after creation through these handlers. -/
theorem org_id_from_claims_never_patched :
    (∀ (dp : String → Option Int) (iso : Int → String) (org : String) (body : JsVal) pl,
      Leads.postPayload dp iso org body = some pl → pl.orgId = org) ∧
    (∀ (org body : JsVal) o, Customers.postPayload org body = some o →
      Customers.jsObjFinal o "orgId" = some org) ∧
    (∀ (dp : String → Option Int) (org : String) (body : JsVal) pl,
      Appointments.postPayload dp org body = some pl → pl.orgId = org) ∧
    (∀ (dp : String → Option Int) (iso : Int → String) (body : JsVal),
      "orgId" ∉ (Leads.patchOf dp iso body).map Prod.fst) ∧
    (∀ body : JsVal, "orgId" ∉ (Customers.patchOf body).map Prod.fst) ∧
    (∀ (dp : String → Option Int) (body : JsVal),
      "orgId" ∉ (Appointments.patchOf dp body).map Prod.fst) := by
  refine ⟨?_, ?_, ?_, ?_, ?_, ?_⟩
  · intro dp iso org body pl h
    simp only [Leads.postPayload] at h
    split at h
    · exact absurd h (by simp)
    · cases h
      rfl
  · intro org body o h
    simp only [Customers.postPayload] at h
    split at h
    · exact absurd h (by simp)
    · cases h
      simp [Customers.jsObjFinal, Customers.mapCustomerInput, List.find?]
  · intro dp org body pl h
    simp only [Appointments.postPayload] at h
    split at h
    · exact absurd h (by simp)
    · split at h
      · exact absurd h (by simp)
      · cases h
        rfl
  · intro dp iso body h
    simp only [Leads.patchOf, List.map_append, List.mem_append] at h
    rcases h with ((((((((((((((((h | h) | h) | h) | h) | h) | h) | h) | h) | h) | h) | h) | h) | h) | h) | h) | h) <;>
      exact absurd (mem_keys_entryIf h) (by decide)
  · intro body h
    rw [List.mem_map] at h
    obtain ⟨kv, hkv, hk⟩ := h
    rw [Customers.patchOf, List.mem_filter] at hkv
    have hmem := hkv.1
    simp [Customers.mapCustomerInput] at hmem
    rcases hmem with h1 | h1 | h1 | h1 | h1 | h1 <;> subst h1 <;> simp at hk
  · intro dp body h
    simp only [Appointments.patchOf, List.map_append, List.mem_append] at h
    rcases h with ((((((h | h) | h) | h) | h) | h) | h) <;>
      first
        | exact absurd (mem_keys_entryIf h) (by decide)
        | exact absurd (mem_keys_entryIfTruthy h) (by decide)

/-- Witness for C8: a concrete customers POST stores the session org under
`orgId`, and concrete PATCH bodies produce update objects without `orgId`. -/
theorem org_id_from_claims_never_patched_witness :
    Customers.jsObjFinal
        [("orgId", JsVal.str "org-1"), ("name", JsVal.str "n"), ("phone", JsVal.str "p"),
         ("email", JsVal.null), ("addr1", JsVal.null), ("addr2", JsVal.null),
         ("memo", JsVal.null)] "orgId" = some (JsVal.str "org-1") ∧
    "orgId" ∉ (Leads.patchOf (fun _ => none) (fun _ => "")
        (JsVal.obj [("bride_name", JsVal.str "a")])).map Prod.fst := by
  constructor
  · exact org_id_from_claims_never_patched.2.1 (JsVal.str "org-1")
      (JsVal.obj [("name", JsVal.str "n"), ("phone", JsVal.str "p")]) _ rfl
  · exact org_id_from_claims_never_patched.2.2.2.1 (fun _ => none) (fun _ => "")
      (JsVal.obj [("bride_name", JsVal.str "a")])

/-! ## C10: the GET list limit -/

/-- C10: on every GET list handler the applied limit never exceeds 200, and
it is 50 whenever the `limit` query parameter is absent, fails to parse as
an integer, or parses to zero. -/
theorem query_limit_bounds :
    (∀ param, queryLimit param ≤ 200) ∧
    queryLimit none = 50 ∧
    (∀ s, (parseIntJS s = none ∨ parseIntJS s = some 0) → queryLimit (some s) = 50) := by
  refine ⟨?_, by decide, ?_⟩
  · intro param
    unfold queryLimit
    exact min_le_right _ _
  · intro s h
    by_cases hs : s = ""
    · subst hs
      decide
    · rcases h with h | h <;> simp [queryLimit, hs, h]

/-- Witness for C10: the non-numeric parameter `abc` falls back to 50, the
zero parameter falls back to 50, and an oversized parameter is clamped. -/
theorem query_limit_bounds_witness :
    queryLimit (some "abc") = 50 ∧ queryLimit (some "0") = 50 ∧
    queryLimit (some "1000") ≤ 200 := by
  refine ⟨?_, ?_, query_limit_bounds.1 (some "1000")⟩
  · exact query_limit_bounds.2.2 "abc" (Or.inl (by decide))
  · exact query_limit_bounds.2.2 "0" (Or.inr (by decide))
